import Mathlib

/-!
# Order-processing pipeline: shallow embedding and verification

This file embeds the order-processing worker (`index.py` of the queue-consumer
Lambda) in Lean and proves/refutes the specification claims about it.

Modelling conventions:
- The DynamoDB orders table is a `Store := List Order`, kept in write order
  (entries appearing later in the list were written more recently).  A
  DynamoDB `query` on the partition key returns the matching items sorted
  ascending by the sort key `timestamp`; this ordering is embedded by an
  insertion sort.
- Stochastic executor outcomes (`random.random()` draws) and I/O faults are
  abstracted into an explicit oracle `World`, following the injectable-policy
  abstraction that the spec itself prescribes for the simulated randomness.
- Side effects (status writes, SNS notifications, CloudWatch metrics) are
  recorded in an explicit `trace : List Event` so that ordering and
  invocation claims can be stated.
- A Python exception that escapes a function is modelled with `Except PyErr`.
  The top-level `except` block of `process_order` reads
  the local variable `order` to recover the timestamp; when the fault was
  raised before `order` was assigned (e.g. the table query itself raised),
  that read raises `UnboundLocalError`, modelled by `PyErr.unboundLocal`.
-/

/-- One line item of an order (`items` entries). -/
structure Item where
  productId : Option String
  name : Option String
  quantity : Nat
  unitPrice : Rat
deriving DecidableEq

/-- An order record as stored in the orders table.  `orderId` (partition key)
and `timestamp` (sort key) are always present on a stored item; the remaining
attributes are optional. -/
structure Order where
  orderId : String
  timestamp : Nat
  customerId : Option String
  items : Option (List Item)
  totalAmount : Option Rat
  status : Option String
  errorMessage : Option String
  updatedAt : Option Nat
  customerEmail : Option String
deriving DecidableEq

/-- The orders table, in write order: later entries were written more
recently.  (A given `(orderId, timestamp)` key occurs at most once in any
store built by the operations below.) -/
abbrev Store := List Order

/-- Oracle for the environment: outcomes of the simulated random draws and
whether each external call faults.  `inventoryShortage` is the per-item
`random.random() < 0.1` draw of `check_inventory`; `paymentDeclined` is the
`random.random() < 0.05` draw of `process_payment`.  The fault flags say
whether the corresponding AWS call raises.  `now` stands for
`datetime.utcnow()`. -/
structure World where
  inventoryShortage : Item → Bool
  paymentDeclined : Bool
  getFaults : Bool
  updateFaults : Bool
  notifyFaults : Bool
  metricsFaults : Bool
  snsConfigured : Bool
  now : Nat

/-- A Python exception escaping a callee. -/
inductive PyErr where
  | unboundLocal
deriving DecidableEq

/-- Observable side effects, in program order. -/
inductive Event where
  | storeWrite (orderId : String) (status : String) (errorMessage : Option String)
  | execInvoke (step : String)
  | notifySent (eventType : String)
  | metricsSent (succeeded : Nat) (failed : Nat)
deriving DecidableEq

/-! ## Order Store operations -/

/-- Ascending insertion by the sort key `timestamp` (DynamoDB keeps items of
one partition sorted by the sort key). -/
def insertByTs (x : Order) : List Order → List Order
  | [] => [x]
  | y :: ys => if x.timestamp ≤ y.timestamp then x :: y :: ys else y :: insertByTs x ys

/-- Sort ascending by `timestamp`. -/
def sortByTs : List Order → List Order
  | [] => []
  | x :: xs => insertByTs x (sortByTs xs)

/-- The table query on the partition key equal to `order_id`:
all items of the partition, ascending by sort key (the default
query direction). -/
def queryByOrderId (store : Store) (order_id : String) : List Order :=
  sortByTs (List.filter (fun o => o.orderId == order_id) store)

/-- First element of the query result -- the `Items[0]` read of
`process_order` (`none` models the empty result, i.e. order not found). -/
def storeGet (store : Store) (order_id : String) : Option Order :=
  (queryByOrderId store order_id).head?

/-- Modelled from the words of the spec, for comparison with `storeGet` (claim C4):
"must return the most-recently-written record when multiple historical
records could exist for an orderId".  With the store in write order, the
most-recently-written matching record is the last matching entry. -/
def mostRecentlyWritten (store : Store) (order_id : String) : Option Order :=
  (List.filter (fun o => o.orderId == order_id) store).getLast?

/-- Key match for the composite key passed to `update_item`. -/
def matchesKey (order_id : String) (ts : Nat) (o : Order) : Bool :=
  o.orderId == order_id && o.timestamp == ts

/-- Python truthiness of `error_message` (`if error_message:`): the
errorMessage attribute enters the update expression only when the argument
is a non-empty string. -/
def effectiveError : Option String → Option String
  | some m => if m == "" then none else some m
  | none => none

/-- Apply the `SET` expression of `update_order_status` to an existing item:
set `status` and `updatedAt`, and `errorMessage` only when supplied. -/
def applyUpdate (w : World) (status : String) (error_message : Option String)
    (o : Order) : Order :=
  { o with
    status := some status
    updatedAt := some w.now
    errorMessage :=
      match effectiveError error_message with
      | some m => some m
      | none => o.errorMessage }

/-- The item `update_item` creates when no item with the given key exists
(DynamoDB upsert): only the key and the `SET` attributes are present. -/
def upsertRecord (w : World) (order_id : String) (ts : Nat) (status : String)
    (error_message : Option String) : Order :=
  { orderId := order_id
    timestamp := ts
    customerId := none
    items := none
    totalAmount := none
    status := some status
    errorMessage := effectiveError error_message
    updatedAt := some w.now
    customerEmail := none }

/-- `update_order_status(order_id, status, timestamp, error_message=None)`:
best-effort partial update of the record keyed `(order_id, timestamp)`.
Any fault of the underlying `update_item` call is caught and logged, leaving
the store unchanged. -/
def update_order_status (w : World) (store : Store) (order_id : String)
    (status : String) (ts : Nat) (error_message : Option String) : Store :=
  if w.updateFaults then store
  else if List.any store (matchesKey order_id ts) then
    List.map (fun o => if matchesKey order_id ts o then
      applyUpdate w status error_message o else o) store
  else
    store ++ [upsertRecord w order_id ts status error_message]

/-! ## Step executors -/

/-- `validate_order(order)`: required-field truthiness loop over
`customerId`, `items`, `totalAmount`, then the non-empty-list check, then
`float(totalAmount) <= 0`. -/
def validate_order (order : Order) : Bool :=
  if !(match order.customerId with | none => false | some s => !(s == "")) then false
  else if !(match order.items with | none => false | some l => !l.isEmpty) then false
  else if !(match order.totalAmount with | none => false | some a => !(a == 0)) then false
  else if (order.items.getD []).isEmpty then false
  else if (order.totalAmount.getD 0) ≤ 0 then false
  else true

/-- `check_inventory(order)`: iterate the items, each drawing the shortage
oracle; a missing `items` attribute raises `KeyError`, caught by the
handler inside the executor, yielding `False`. -/
def check_inventory (w : World) (order : Order) : Bool :=
  match order.items with
  | none => false
  | some l => !(List.any l w.inventoryShortage)

/-- `process_payment(order)`: reads `totalAmount` (a missing attribute
raises, caught, `False`), then draws the decline oracle. -/
def process_payment (w : World) (order : Order) : Bool :=
  match order.totalAmount with
  | none => false
  | some _ => !w.paymentDeclined

/-- `fulfill_order(order)`: reads `items` (a missing attribute raises,
caught, `False`), then succeeds. -/
def fulfill_order (order : Order) : Bool :=
  match order.items with
  | none => false
  | some _ => true

/-! ## Order state machine -/

/-- The `processing_steps` list of `process_order`. -/
def processing_steps (w : World) : List (String × (Order → Bool)) :=
  [("VALIDATING", validate_order),
   ("INVENTORY_CHECK", check_inventory w),
   ("PAYMENT_PROCESSING", process_payment w),
   ("FULFILLMENT", fulfill_order)]

/-- Trace of a (successful) status write; a faulting `update_item` writes
nothing. -/
def writeEv (w : World) (order_id : String) (status : String)
    (error_message : Option String) : List Event :=
  if w.updateFaults then [] else [Event.storeWrite order_id status error_message]

/-- Trace of `send_order_notification`: nothing when no topic is configured
(no-op) or when `sns.publish` raises (swallowed). -/
def notifyEv (w : World) (eventType : String) : List Event :=
  if w.snsConfigured && !w.notifyFaults then [Event.notifySent eventType] else []

/-- Trace of `send_processing_metrics`: nothing when the CloudWatch call
raises (swallowed). -/
def metricsEv (w : World) (succeeded : Nat) (failed : Nat) : List Event :=
  if w.metricsFaults then [] else [Event.metricsSent succeeded failed]

/-- Outcome of the step loop of `process_order`. -/
structure ProcOut where
  store : Store
  trace : List Event
  ok : Bool
deriving DecidableEq

/-- The `for status, processing_function in processing_steps:` loop of
`process_order`, including the epilogue (persist `COMPLETED`, completion
notification) when the step list is exhausted.  `order` is the record loaded
before the loop; `order.timestamp` keys every status write. -/
def runSteps (w : World) (store : Store) (order_id : String) (order : Order) :
    List (String × (Order → Bool)) → ProcOut
  | [] =>
    { store := update_order_status w store order_id "COMPLETED" order.timestamp none
      trace := writeEv w order_id "COMPLETED" none ++ notifyEv w "COMPLETED"
      ok := true }
  | (status, processing_function) :: rest =>
    let s1 := update_order_status w store order_id status order.timestamp none
    if processing_function order then
      let out := runSteps w s1 order_id order rest
      { out with trace := writeEv w order_id status none ++
          Event.execInvoke status :: out.trace }
    else
      let msg := "Failed at " ++ status
      { store := update_order_status w s1 order_id "FAILED" order.timestamp (some msg)
        trace := writeEv w order_id status none ++ Event.execInvoke status ::
          (writeEv w order_id "FAILED" (some msg) ++ notifyEv w "FAILED")
        ok := false }

instance {ε α : Type} [DecidableEq ε] [DecidableEq α] : DecidableEq (Except ε α)
  | Except.ok a, Except.ok b =>
    if h : a = b then isTrue (by rw [h]) else isFalse (by simp [h])
  | Except.ok _, Except.error _ => isFalse (by simp)
  | Except.error _, Except.ok _ => isFalse (by simp)
  | Except.error e, Except.error f =>
    if h : e = f then isTrue (by rw [h]) else isFalse (by simp [h])

/-- Result of `process_order`: the returned value (or a propagated
exception), the store after the call, and the emitted trace. -/
structure ProcResult where
  result : Except PyErr Bool
  store : Store
  trace : List Event
deriving DecidableEq

/-- `process_order(order_id)`.  When the table query raises
(`w.getFaults`), control reaches the top-level `except` block before the
local `order` was assigned; that block reads `order` and therefore raises
`UnboundLocalError`, which propagates to the caller. -/
def process_order (w : World) (store : Store) (order_id : String) : ProcResult :=
  if w.getFaults then
    { result := Except.error PyErr.unboundLocal, store := store, trace := [] }
  else
    match storeGet store order_id with
    | none => { result := Except.ok false, store := store, trace := [] }
    | some order =>
      if (order.status.getD "PENDING") ≠ "PENDING" then
        { result := Except.ok true, store := store, trace := [] }
      else
        let out := runSteps w store order_id order (processing_steps w)
        { result := Except.ok out.ok, store := out.store, trace := out.trace }

/-! ## Batch consumer -/

/-- Decoded body of one SQS record: either `json.loads` succeeded and both
`orderId` and `action` were present, or decoding raised. -/
inductive MsgBody where
  | valid (orderId : String) (action : String)
  | malformed
deriving DecidableEq

/-- One SQS record of the batch event. -/
structure SQSRecord where
  messageId : String
  body : MsgBody
deriving DecidableEq

/-- Per-record dispatch of the batch loop: returns the store afterwards, the
contribution (zero or one element) to `processed_orders` and to
`failed_orders`, and the emitted trace.  A decode fault or an exception
propagating out of `process_order` is caught by the per-record handler and
recorded under the `messageId` of the record. -/
def handleRecord (w : World) (store : Store) (r : SQSRecord) :
    Store × List String × List String × List Event :=
  match r.body with
  | MsgBody.malformed => (store, [], [r.messageId], [])
  | MsgBody.valid order_id action =>
    if action = "PROCESS_ORDER" then
      let out := process_order w store order_id
      match out.result with
      | Except.ok true => (out.store, [order_id], [], out.trace)
      | Except.ok false => (out.store, [], [order_id], out.trace)
      | Except.error _ => (out.store, [], [r.messageId], out.trace)
    else
      (store, [], [order_id], [])

/-- The loop over the records of the batch event. -/
def processRecords (w : World) (store : Store) :
    List SQSRecord → Store × List String × List String × List Event
  | [] => (store, [], [], [])
  | r :: rest =>
    let out1 := handleRecord w store r
    let outr := processRecords w out1.1 rest
    (outr.1, out1.2.1 ++ outr.2.1, out1.2.2.1 ++ outr.2.2.1,
     out1.2.2.2 ++ outr.2.2.2)

/-- The return value of the batch handler plus the model state. -/
structure BatchResult where
  statusCode : Nat
  processedOrders : List String
  failedOrders : List String
  store : Store
  trace : List Event
deriving DecidableEq

/-- `handler(event, context)`: process every record, emit the aggregate
metrics (best-effort), return statusCode 200 with both outcome lists. -/
def handler (w : World) (store : Store) (records : List SQSRecord) : BatchResult :=
  let out := processRecords w store records
  { statusCode := 200
    processedOrders := out.2.1
    failedOrders := out.2.2.1
    store := out.1
    trace := out.2.2.2 ++ metricsEv w out.2.1.length out.2.2.1.length }

/-! ## Derived notions used only in statements -/

/-- The head of the list is a lower bound for the timestamps of the list. -/
def headMin (l : List Order) : Prop :=
  ∀ r0 r : Order, l.head? = some r0 → r ∈ l → r0.timestamp ≤ r.timestamp

/-- Name of step number `k` of the processing sequence. -/
def stepName : Fin 4 → String
  | ⟨0, _⟩ => "VALIDATING"
  | ⟨1, _⟩ => "INVENTORY_CHECK"
  | ⟨2, _⟩ => "PAYMENT_PROCESSING"
  | ⟨3, _⟩ => "FULFILLMENT"

/-- Outcome of the executor of step number `k` on a given order. -/
def execAt (w : World) (order : Order) : Fin 4 → Bool
  | ⟨0, _⟩ => validate_order order
  | ⟨1, _⟩ => check_inventory w order
  | ⟨2, _⟩ => process_payment w order
  | ⟨3, _⟩ => fulfill_order order

/-- The environment with the fault flags of the best-effort side effects
(status write, notification, metrics) and the notification-target
configuration replaced; the business outcomes are untouched. -/
def sideFx (w : World) (u n m c : Bool) : World :=
  { w with updateFaults := u, notifyFaults := n, metricsFaults := m,
           snsConfigured := c }

/-! ## Concrete fixtures for witnesses and counterexamples -/

/-- A well-formed line item. -/
def itemW : Item :=
  { productId := some "X", name := some "widget", quantity := 1, unitPrice := 10 }

/-- A well-formed pending order record. -/
def orderW : Order :=
  { orderId := "o1", timestamp := 1, customerId := some "c1", items := some [itemW],
    totalAmount := some 10, status := some "PENDING", errorMessage := none,
    updatedAt := none, customerEmail := none }

/-- An environment where every draw succeeds and no call faults. -/
def worldW : World :=
  { inventoryShortage := fun _ => false, paymentDeclined := false, getFaults := false,
    updateFaults := false, notifyFaults := false, metricsFaults := false,
    snsConfigured := true, now := 7 }

/-- The same environment, but with every inventory draw coming up short. -/
def worldInv : World := { worldW with inventoryShortage := fun _ => true }

/-- A COMPLETED order record used for batch fixtures. -/
def orderDone : Order := { orderW with orderId := "a1", status := some "COMPLETED" }

/-- An environment whose payment draw declines (and with no notification
target configured). -/
def worldPay : World := { worldW with paymentDeclined := true, snsConfigured := false }

/-- An order record written first, with the earlier creation timestamp. -/
def recEarly : Order := { orderW with customerId := some "early" }

/-- An order record for the same orderId written second, with the later
creation timestamp. -/
def recLate : Order := { orderW with timestamp := 2, customerId := some "late" }


/-! ## General lemmas about the store operations -/

/-- Membership is preserved by the ascending insertion. -/
lemma insertByTs_mem (x a : Order) : ∀ l : List Order, a ∈ insertByTs x l ↔ a = x ∨ a ∈ l
  | [] => by simp [insertByTs]
  | y :: ys => by
    unfold insertByTs
    split
    · simp
    · simp [insertByTs_mem x a ys]
      tauto

/-- Membership is preserved by the sort. -/
lemma sortByTs_mem (a : Order) : ∀ l : List Order, a ∈ sortByTs l ↔ a ∈ l
  | [] => by simp [sortByTs]
  | x :: xs => by
    simp [sortByTs, insertByTs_mem, sortByTs_mem a xs]

lemma headMin_insertByTs (x : Order) :
    ∀ l : List Order, headMin l → headMin (insertByTs x l)
  | [], _ => by
    intro r0 r hh hr
    simp [insertByTs] at hh hr
    simp [hh, hr]
  | y :: ys, h => by
    intro r0 r hh hr
    unfold insertByTs at hh hr
    by_cases hle : x.timestamp ≤ y.timestamp
    · simp [hle] at hh hr
      subst hh
      rcases hr with hr | hr | hr
      · simp [hr]
      · simp [hr] at hle ⊢; exact hle
      · exact le_trans hle (h y r rfl (by simp [hr]))
    · simp [hle] at hh hr
      subst hh
      rcases hr with hr | hr
      · simp [hr]
      · rw [insertByTs_mem] at hr
        rcases hr with hr | hr
        · subst hr; omega
        · exact h y r rfl (by simp [hr])

lemma headMin_sortByTs : ∀ l : List Order, headMin (sortByTs l)
  | [] => by intro r0 r hh _; simp [sortByTs] at hh
  | x :: xs => headMin_insertByTs x (sortByTs xs) (headMin_sortByTs xs)

lemma mem_of_head_eq_some {α : Type} {l : List α} {a : α} (h : l.head? = some a) :
    a ∈ l := by
  cases l with
  | nil => simp at h
  | cons x xs => simp at h; simp [h]

/-- If the order is already at a non-PENDING status, `process_order` reports
success immediately: the store is untouched and no event is emitted. -/
lemma process_order_short_circuit (w : World) (store : Store) (order_id : String)
    (r0 : Order) (st : String) (hg : w.getFaults = false)
    (hget : storeGet store order_id = some r0) (hst : r0.status = some st)
    (hne : st ≠ "PENDING") :
    process_order w store order_id =
      { result := Except.ok true, store := store, trace := [] } := by
  unfold process_order
  rw [hg, hget]
  simp [hst, hne]

/-! ## Claims -/

/-- Claim C1: for every order already at a non-PENDING status, invoking
`process_order` again returns success, invokes no step executor and emits
no other side effect (the trace is empty), and leaves the record -- indeed
the whole store -- unchanged. -/
theorem claim_c1_idempotent_short_circuit (w : World) (store : Store)
    (order_id : String) (r0 : Order) (st : String) (hg : w.getFaults = false)
    (hget : storeGet store order_id = some r0) (hst : r0.status = some st)
    (hne : st ≠ "PENDING") :
    process_order w store order_id =
      { result := Except.ok true, store := store, trace := [] } :=
  process_order_short_circuit w store order_id r0 st hg hget hst hne

/-- Witness for C1: a COMPLETED order is reported successful with no step
executed and the store unchanged. -/
theorem claim_c1_witness :
    process_order worldW [{ orderW with status := some "COMPLETED" }] "o1" =
      { result := Except.ok true,
        store := [{ orderW with status := some "COMPLETED" }], trace := [] } :=
  claim_c1_idempotent_short_circuit worldW
    [{ orderW with status := some "COMPLETED" }] "o1"
    { orderW with status := some "COMPLETED" } "COMPLETED"
    rfl (by decide) rfl (by decide)

/-- Claim C3 (code bug): when the table query raises before the local
`order` is assigned, the top-level except block of `process_order` itself
faults on the unbound local, and the exception propagates to the caller
instead of being swallowed. -/
theorem claim_c3_fault_propagates :
    process_order { worldW with getFaults := true } [orderW] "o1" =
      { result := Except.error PyErr.unboundLocal, store := [orderW],
        trace := [] } := rfl

/-- Counterexample for C4: with two historical records for the same orderId,
the read performed by `process_order` returns the first item of the
ascending-by-timestamp query, which is the earliest record, not the
most-recently-written one. -/
theorem claim_c4_counterexample :
    storeGet [recEarly, recLate] "o1" ≠ mostRecentlyWritten [recEarly, recLate] "o1" ∧
    storeGet [recEarly, recLate] "o1" = some recEarly ∧
    mostRecentlyWritten [recEarly, recLate] "o1" = some recLate := by decide

/-- Claim C4 (amended): the get performed by `process_order` returns the
stored record for the orderId with the smallest timestamp -- the
earliest-written record -- rather than the most-recently-written one. -/
theorem claim_c4_returns_earliest (store : Store) (order_id : String) (r0 : Order)
    (h : storeGet store order_id = some r0) :
    r0 ∈ store ∧ r0.orderId = order_id ∧
      ∀ r ∈ store, r.orderId = order_id → r0.timestamp ≤ r.timestamp := by
  unfold storeGet queryByOrderId at h
  have hmem : r0 ∈ sortByTs (List.filter (fun o => o.orderId == order_id) store) :=
    mem_of_head_eq_some h
  rw [sortByTs_mem, List.mem_filter] at hmem
  refine ⟨hmem.1, by simpa using hmem.2, ?_⟩
  intro r hr hrid
  exact headMin_sortByTs _ r0 r h
    ((sortByTs_mem r _).mpr (List.mem_filter.mpr ⟨hr, by simp [hrid]⟩))

/-- Witness for C4 (amended): on the two-record store, the returned record
is in the store, matches the orderId and has the minimal timestamp. -/
theorem claim_c4_witness :
    recEarly ∈ [recEarly, recLate] ∧ recEarly.orderId = "o1" ∧
      ∀ r ∈ [recEarly, recLate], r.orderId = "o1" →
        recEarly.timestamp ≤ r.timestamp :=
  claim_c4_returns_earliest [recEarly, recLate] "o1" recEarly (by decide)

/-- Claim C5: `validate_order` succeeds exactly on the well-formed orders:
a present non-empty customerId, a present non-empty item list, and a
present strictly positive totalAmount; it fails in particular on a missing
or empty field, an empty item list, a zero total and a negative total. -/
theorem claim_c5_validate_iff (order : Order) :
    validate_order order = true ↔
      (∃ c, order.customerId = some c ∧ c ≠ "") ∧
      (∃ l, order.items = some l ∧ l ≠ []) ∧
      (∃ a, order.totalAmount = some a ∧ 0 < a) := by
  unfold validate_order
  cases hc : order.customerId <;> cases hi : order.items <;>
    cases ha : order.totalAmount <;>
      simp [hc, hi, ha, List.isEmpty_iff, not_le]
  intro _ hl
  constructor
  · intro h
    exact h.2.2
  · intro h
    exact ⟨h.ne', hl, h⟩

/-! ## Trace structure of the step loop -/

lemma notifyEv_no_exec (w : World) (t st : String) :
    Event.execInvoke st ∉ notifyEv w t := by
  unfold notifyEv
  split <;> simp

/-- Trace equation for one successful step. -/
lemma runSteps_cons_trace_pos (w : World) (s : Store) (order_id : String)
    (order : Order) (st1 : String) (f : Order → Bool)
    (rest : List (String × (Order → Bool))) (hf : f order = true) :
    (runSteps w s order_id order ((st1, f) :: rest)).trace =
      writeEv w order_id st1 none ++ Event.execInvoke st1 ::
        (runSteps w (update_order_status w s order_id st1 order.timestamp none)
          order_id order rest).trace := by
  simp [runSteps, hf]

/-- Trace equation for a failing step. -/
lemma runSteps_cons_trace_neg (w : World) (s : Store) (order_id : String)
    (order : Order) (st1 : String) (f : Order → Bool)
    (rest : List (String × (Order → Bool))) (hf : f order = false) :
    (runSteps w s order_id order ((st1, f) :: rest)).trace =
      writeEv w order_id st1 none ++ Event.execInvoke st1 ::
        (writeEv w order_id "FAILED" (some ("Failed at " ++ st1)) ++
          notifyEv w "FAILED") := by
  simp [runSteps, hf]

/-- In the trace of the step loop, every executor invocation for a step is
preceded by the status write for that same step (when status writes do not
fault, so that "persisted" is accurate). -/
lemma runSteps_write_before_exec (w : World) (hup : w.updateFaults = false) :
    ∀ (steps : List (String × (Order → Bool))) (s : Store) (order_id : String)
      (order : Order) (st : String) (pre post : List Event),
      (runSteps w s order_id order steps).trace = pre ++ Event.execInvoke st :: post →
      Event.storeWrite order_id st none ∈ pre
  | [] => by
    intro s order_id order st pre post h
    exfalso
    have hmem : Event.execInvoke st ∈ (runSteps w s order_id order []).trace := by
      rw [h]; simp
    simp [runSteps, writeEv, hup] at hmem
    exact notifyEv_no_exec w "COMPLETED" st hmem
  | (st1, f) :: rest => by
    intro s order_id order st pre post h
    by_cases hf : f order = true
    · rw [runSteps_cons_trace_pos w s order_id order st1 f rest hf] at h
      simp only [writeEv, hup, if_false, Bool.false_eq_true, List.cons_append,
        List.nil_append] at h
      cases pre with
      | nil => simp at h
      | cons e1 pre1 =>
        rw [List.cons_append] at h
        injection h with h1 h2
        cases pre1 with
        | nil =>
          rw [List.nil_append] at h2
          injection h2 with h3 h4
          injection h3 with h5
          rw [← h1, h5]
          simp
        | cons e2 pre2 =>
          rw [List.cons_append] at h2
          injection h2 with h3 h4
          have := runSteps_write_before_exec w hup rest _ order_id order st pre2 post h4
          simp [this]
    · rw [runSteps_cons_trace_neg w s order_id order st1 f rest
        (Bool.not_eq_true _ ▸ hf)] at h
      simp only [writeEv, hup, if_false, Bool.false_eq_true, List.cons_append,
        List.nil_append] at h
      cases pre with
      | nil => simp at h
      | cons e1 pre1 =>
        rw [List.cons_append] at h
        injection h with h1 h2
        cases pre1 with
        | nil =>
          rw [List.nil_append] at h2
          injection h2 with h3 h4
          injection h3 with h5
          rw [← h1, h5]
          simp
        | cons e2 pre2 =>
          rw [List.cons_append] at h2
          injection h2 with h3 h4
          exfalso
          have hmem : Event.execInvoke st ∈
              Event.storeWrite order_id "FAILED" (some ("Failed at " ++ st1)) ::
                notifyEv w "FAILED" := by
            rw [h4]; simp
          simp at hmem
          exact notifyEv_no_exec w "FAILED" st hmem

/-- If the order is found PENDING, `process_order` runs the step pipeline. -/
lemma process_order_pipeline (w : World) (store : Store) (order_id : String)
    (o : Order) (hg : w.getFaults = false)
    (hget : storeGet store order_id = some o)
    (hst : o.status.getD "PENDING" = "PENDING") :
    process_order w store order_id =
      { result := Except.ok (runSteps w store order_id o (processing_steps w)).ok,
        store := (runSteps w store order_id o (processing_steps w)).store,
        trace := (runSteps w store order_id o (processing_steps w)).trace } := by
  unfold process_order
  rw [hg, hget]
  simp [hst]

/-- Claim C7: in the trace produced by `process_order`, every invocation of
the executor for a step is preceded by the persisted write of that step
status (stated for every split of the trace at an executor invocation). -/
theorem claim_c7_status_written_before_executor (w : World) (store : Store)
    (order_id st : String) (pre post : List Event)
    (hup : w.updateFaults = false)
    (h : (process_order w store order_id).trace = pre ++ Event.execInvoke st :: post) :
    Event.storeWrite order_id st none ∈ pre := by
  cases hg : w.getFaults with
  | true =>
    unfold process_order at h
    rw [hg] at h
    simp at h
  | false =>
    cases hget : storeGet store order_id with
    | none =>
      unfold process_order at h
      rw [hg, hget] at h
      simp at h
    | some o =>
      by_cases hst : o.status.getD "PENDING" = "PENDING"
      · rw [process_order_pipeline w store order_id o hg hget hst] at h
        exact runSteps_write_before_exec w hup (processing_steps w)
          store order_id o st pre post h
      · cases ho : o.status with
        | none => rw [ho] at hst; simp at hst
        | some s0 =>
          rw [ho] at hst
          simp at hst
          rw [process_order_short_circuit w store order_id o s0 hg hget ho hst] at h
          simp at h

/-- Witness for C7: on the all-success run, the PAYMENT_PROCESSING executor
invocation is preceded in the trace by the PAYMENT_PROCESSING status write. -/
theorem claim_c7_witness :
    Event.storeWrite "o1" "PAYMENT_PROCESSING" none ∈
      [Event.storeWrite "o1" "VALIDATING" none,
       Event.execInvoke "VALIDATING",
       Event.storeWrite "o1" "INVENTORY_CHECK" none,
       Event.execInvoke "INVENTORY_CHECK",
       Event.storeWrite "o1" "PAYMENT_PROCESSING" none] :=
  claim_c7_status_written_before_executor worldW [orderW] "o1" "PAYMENT_PROCESSING"
    [Event.storeWrite "o1" "VALIDATING" none,
     Event.execInvoke "VALIDATING",
     Event.storeWrite "o1" "INVENTORY_CHECK" none,
     Event.execInvoke "INVENTORY_CHECK",
     Event.storeWrite "o1" "PAYMENT_PROCESSING" none]
    [Event.storeWrite "o1" "FULFILLMENT" none,
     Event.execInvoke "FULFILLMENT",
     Event.storeWrite "o1" "COMPLETED" none,
     Event.notifySent "COMPLETED"]
    rfl (by decide)

/-- Claim C9: a stored record with no status attribute at all is defaulted
to PENDING by the idempotency gate, so `process_order` drives it through
the step pipeline (the call equals the pipeline run, and the trace starts
with the VALIDATING status write and executor invocation) instead of
rejecting or short-circuiting it. -/
theorem claim_c9_missing_status_is_pending (w : World) (store : Store)
    (order_id : String) (o : Order) (hg : w.getFaults = false)
    (hget : storeGet store order_id = some o) (hst : o.status = none) :
    process_order w store order_id =
      { result := Except.ok (runSteps w store order_id o (processing_steps w)).ok,
        store := (runSteps w store order_id o (processing_steps w)).store,
        trace := (runSteps w store order_id o (processing_steps w)).trace } ∧
    (w.updateFaults = false → ∃ rest,
      (process_order w store order_id).trace =
        Event.storeWrite order_id "VALIDATING" none ::
          Event.execInvoke "VALIDATING" :: rest) := by
  have hdflt : o.status.getD "PENDING" = "PENDING" := by rw [hst]; rfl
  have hp := process_order_pipeline w store order_id o hg hget hdflt
  refine ⟨hp, fun hup => ?_⟩
  rw [hp]
  show ∃ rest, (runSteps w store order_id o (processing_steps w)).trace = _
  unfold processing_steps
  by_cases hv : validate_order o = true
  · rw [runSteps_cons_trace_pos w store order_id o "VALIDATING" validate_order _ hv]
    simp [writeEv, hup]
  · rw [runSteps_cons_trace_neg w store order_id o "VALIDATING" validate_order _
      (Bool.not_eq_true _ ▸ hv)]
    simp [writeEv, hup]

/-- Witness for C9: a record lacking the status attribute is run through
the pipeline and completes. -/
theorem claim_c9_witness :
    process_order worldW [{ orderW with status := none }] "o1" =
      { result := Except.ok (runSteps worldW [{ orderW with status := none }] "o1"
          { orderW with status := none } (processing_steps worldW)).ok,
        store := (runSteps worldW [{ orderW with status := none }] "o1"
          { orderW with status := none } (processing_steps worldW)).store,
        trace := (runSteps worldW [{ orderW with status := none }] "o1"
          { orderW with status := none } (processing_steps worldW)).trace } ∧
    (worldW.updateFaults = false → ∃ rest,
      (process_order worldW [{ orderW with status := none }] "o1").trace =
        Event.storeWrite "o1" "VALIDATING" none ::
          Event.execInvoke "VALIDATING" :: rest) :=
  claim_c9_missing_status_is_pending worldW [{ orderW with status := none }] "o1"
    { orderW with status := none } rfl (by decide) rfl

/-! ## Persistence of a failed-status update -/

lemma matchesKey_applyUpdate (order_id : String) (ts : Nat) (w : World)
    (st : String) (m : Option String) (o : Order) :
    matchesKey order_id ts (applyUpdate w st m o) = matchesKey order_id ts o := by
  simp [matchesKey, applyUpdate]

lemma find?_append_of_none {α : Type} (p : α → Bool) :
    ∀ (l1 l2 : List α), List.find? p l1 = none →
      List.find? p (l1 ++ l2) = List.find? p l2
  | [], l2 => by simp
  | x :: xs, l2 => by
    intro h
    by_cases hx : p x = true
    · simp [List.find?_cons_of_pos _ hx] at h
    · simp only [List.cons_append, List.find?_cons_of_neg _ hx] at h ⊢
      exact find?_append_of_none p xs l2 h

lemma find?_map_update (w : World) (order_id : String) (ts : Nat) (st : String)
    (m : Option String) :
    ∀ l : List Order, List.any l (matchesKey order_id ts) = true →
      ∃ o0, List.find? (matchesKey order_id ts)
          (List.map (fun o => if matchesKey order_id ts o then
            applyUpdate w st m o else o) l) =
          some (applyUpdate w st m o0)
  | [] => by simp
  | x :: xs => by
    intro hany
    by_cases hx : matchesKey order_id ts x = true
    · refine ⟨x, ?_⟩
      simp only [List.map_cons, hx, if_true]
      exact List.find?_cons_of_pos _ (by rw [matchesKey_applyUpdate]; exact hx)
    · have hany2 : List.any xs (matchesKey order_id ts) = true := by
        simp only [List.any_cons, hx, Bool.false_or] at hany
        exact hany
      obtain ⟨o0, hfind⟩ := find?_map_update w order_id ts st m xs hany2
      refine ⟨o0, ?_⟩
      simp only [List.map_cons, hx, if_false, Bool.false_eq_true]
      rw [List.find?_cons_of_neg _ (by simp [hx]), hfind]

lemma update_persists (w : World) (s : Store) (order_id : String) (st : String)
    (ts : Nat) (m : String) (hup : w.updateFaults = false) (hm : ¬m = "") :
    ∃ r, List.find? (matchesKey order_id ts)
        (update_order_status w s order_id st ts (some m)) = some r ∧
      r.status = some st ∧ r.errorMessage = some m := by
  unfold update_order_status
  rw [hup]
  simp only [Bool.false_eq_true, if_false]
  by_cases hany : List.any s (matchesKey order_id ts) = true
  · rw [if_pos hany]
    obtain ⟨o0, hfind⟩ := find?_map_update w order_id ts st (some m) s hany
    exact ⟨applyUpdate w st (some m) o0, hfind, by simp [applyUpdate],
      by simp [applyUpdate, effectiveError, hm]⟩
  · rw [if_neg hany]
    refine ⟨upsertRecord w order_id ts st (some m), ?_, rfl,
      by simp [upsertRecord, effectiveError, hm]⟩
    rw [find?_append_of_none]
    · exact List.find?_cons_of_pos _ (by simp [matchesKey, upsertRecord])
    · rw [List.find?_eq_none]
      intro x hx hpx
      exact hany (List.any_eq_true.mpr ⟨x, hx, hpx⟩)

/-- Claim C2: if the executor for step k of the sequence fails (all earlier
steps having succeeded), `process_order` returns failure, persists status
FAILED with errorMessage "Failed at " followed by the step name on the
record it processed, emits exactly one failure notification, and invokes no
executor of any later step. -/
theorem claim_c2_step_failure (w : World) (store : Store) (order_id : String)
    (r0 : Order) (k : Fin 4)
    (hg : w.getFaults = false) (hup : w.updateFaults = false)
    (hsns : w.snsConfigured = true) (hnot : w.notifyFaults = false)
    (hget : storeGet store order_id = some r0)
    (hgate : r0.status.getD "PENDING" = "PENDING")
    (hpre : ∀ j : Fin 4, j < k → execAt w r0 j = true)
    (hk : execAt w r0 k = false) :
    (process_order w store order_id).result = Except.ok false ∧
    (∃ r, List.find? (matchesKey order_id r0.timestamp)
        (process_order w store order_id).store = some r ∧
      r.status = some "FAILED" ∧
      r.errorMessage = some ("Failed at " ++ stepName k)) ∧
    ((process_order w store order_id).trace).count (Event.notifySent "FAILED") = 1 ∧
    (∀ j : Fin 4, k < j →
      Event.execInvoke (stepName j) ∉ (process_order w store order_id).trace) := by
  have hpo := process_order_pipeline w store order_id r0 hg hget hgate
  fin_cases k
  · simp only [execAt] at hk
    rw [hpo]
    refine ⟨?_, ?_, ?_, ?_⟩ <;>
      simp [processing_steps, runSteps, hk, writeEv, notifyEv, hup, hsns, hnot, stepName]
    · exact update_persists w _ order_id "FAILED" r0.timestamp _ hup (by decide)
    · intro j hj
      fin_cases j <;> simp_all [stepName]
  · have h0 := hpre ⟨0, by omega⟩ (by decide)
    simp only [execAt] at h0 hk
    rw [hpo]
    refine ⟨?_, ?_, ?_, ?_⟩ <;>
      simp [processing_steps, runSteps, h0, hk, writeEv, notifyEv, hup, hsns, hnot,
        stepName]
    · exact update_persists w _ order_id "FAILED" r0.timestamp _ hup (by decide)
    · intro j hj
      fin_cases j <;> simp_all [stepName]
  · have h0 := hpre ⟨0, by omega⟩ (by decide)
    have h1 := hpre ⟨1, by omega⟩ (by decide)
    simp only [execAt] at h0 h1 hk
    rw [hpo]
    refine ⟨?_, ?_, ?_, ?_⟩ <;>
      simp [processing_steps, runSteps, h0, h1, hk, writeEv, notifyEv, hup, hsns, hnot,
        stepName]
    · exact update_persists w _ order_id "FAILED" r0.timestamp _ hup (by decide)
    · intro j hj
      fin_cases j <;> simp_all [stepName]
  · have h0 := hpre ⟨0, by omega⟩ (by decide)
    have h1 := hpre ⟨1, by omega⟩ (by decide)
    have h2 := hpre ⟨2, by omega⟩ (by decide)
    simp only [execAt] at h0 h1 h2 hk
    rw [hpo]
    refine ⟨?_, ?_, ?_, ?_⟩ <;>
      simp [processing_steps, runSteps, h0, h1, h2, hk, writeEv, notifyEv, hup, hsns,
        hnot, stepName]
    · exact update_persists w _ order_id "FAILED" r0.timestamp _ hup (by decide)
    · intro j hj
      fin_cases j <;> simp_all [stepName]

/-- Witness for C2: with the inventory draw forced short, processing fails at
INVENTORY_CHECK, persists the FAILED status with the matching message, emits
one failure notification, and never invokes a later executor. -/
theorem claim_c2_witness :
    (process_order worldInv [orderW] "o1").result = Except.ok false ∧
    (∃ r, List.find? (matchesKey "o1" orderW.timestamp)
        (process_order worldInv [orderW] "o1").store = some r ∧
      r.status = some "FAILED" ∧
      r.errorMessage = some ("Failed at " ++ stepName (1 : Fin 4))) ∧
    ((process_order worldInv [orderW] "o1").trace).count (Event.notifySent "FAILED") = 1 ∧
    (∀ j : Fin 4, (1 : Fin 4) < j →
      Event.execInvoke (stepName j) ∉ (process_order worldInv [orderW] "o1").trace) :=
  claim_c2_step_failure worldInv [orderW] "o1" orderW (1 : Fin 4)
    rfl rfl rfl rfl (by decide) rfl (by decide) (by decide)

/-! ## Batch consumer lemmas -/

/-- Every record of the batch contributes exactly one entry, to exactly one
of the two outcome lists. -/
lemma handleRecord_one (w : World) (s : Store) (r : SQSRecord) :
    (handleRecord w s r).2.1.length + (handleRecord w s r).2.2.1.length = 1 := by
  unfold handleRecord
  cases hb : r.body with
  | malformed => simp
  | valid order_id action =>
    by_cases ha : action = "PROCESS_ORDER"
    · simp only [ha, if_true]
      cases hres : (process_order w s order_id).result with
      | ok b => cases b <;> simp
      | error e => simp
    · simp [ha]

lemma processRecords_length (w : World) :
    ∀ (records : List SQSRecord) (s : Store),
      (processRecords w s records).2.1.length +
        (processRecords w s records).2.2.1.length = records.length
  | [] => by intro s; simp [processRecords]
  | r :: rest => by
    intro s
    have h1 := handleRecord_one w s r
    have ih := processRecords_length w rest (handleRecord w s r).1
    show ((handleRecord w s r).2.1 ++
        (processRecords w (handleRecord w s r).1 rest).2.1).length +
      ((handleRecord w s r).2.2.1 ++
        (processRecords w (handleRecord w s r).1 rest).2.2.1).length =
      rest.length + 1
    simp only [List.length_append]
    omega

/-- Claim C10: whenever no fault escapes the per-record handling (which the
model guarantees structurally), the batch handler returns statusCode 200 --
however many orders failed -- and each record of the batch contributes
exactly one entry to exactly one of processedOrders and failedOrders, so the
two lengths sum to the batch size. -/
theorem claim_c10_batch_partition (w : World) (store : Store)
    (records : List SQSRecord) :
    (handler w store records).statusCode = 200 ∧
    (handler w store records).processedOrders.length +
      (handler w store records).failedOrders.length = records.length :=
  ⟨rfl, processRecords_length w records store⟩

lemma processRecords_append (w : World) :
    ∀ (l1 l2 : List SQSRecord) (s : Store),
      processRecords w s (l1 ++ l2) =
        ((processRecords w (processRecords w s l1).1 l2).1,
         (processRecords w s l1).2.1 ++
           (processRecords w (processRecords w s l1).1 l2).2.1,
         (processRecords w s l1).2.2.1 ++
           (processRecords w (processRecords w s l1).1 l2).2.2.1,
         (processRecords w s l1).2.2.2 ++
           (processRecords w (processRecords w s l1).1 l2).2.2.2)
  | [], l2 => by intro s; simp [processRecords]
  | r :: rest, l2 => by
    intro s
    simp [processRecords, processRecords_append w rest l2]

/-- A batch whose every message targets an already-COMPLETED order is fully
processed: the store is untouched, no failure is recorded, no event emitted,
and one success is recorded per message. -/
lemma processRecords_all_completed (w : World) (hg : w.getFaults = false) :
    ∀ (rs : List SQSRecord) (store : Store),
      (∀ r ∈ rs, ∃ oid r0, r.body = MsgBody.valid oid "PROCESS_ORDER" ∧
        storeGet store oid = some r0 ∧ r0.status = some "COMPLETED") →
      ∃ ps, processRecords w store rs = (store, ps, [], []) ∧
        ps.length = rs.length
  | [] => by intro store _; exact ⟨[], rfl, rfl⟩
  | r :: rest => by
    intro store hall
    obtain ⟨oid, r0, hb, hgets, hst⟩ := hall r (by simp)
    have hpo := process_order_short_circuit w store oid r0 "COMPLETED" hg hgets hst
      (by decide)
    have hrec : handleRecord w store r = (store, [oid], [], []) := by
      unfold handleRecord
      rw [hb]
      simp only [if_true, reduceIte]
      rw [hpo]
    obtain ⟨ps, hps, hlen⟩ := processRecords_all_completed w hg rest store
      (fun q hq => hall q (by simp [hq]))
    refine ⟨oid :: ps, ?_, by simp [hlen]⟩
    simp [processRecords, hrec, hps]

/-- Claim C6: in a batch where one message carries an unknown action and
every other message is a valid PROCESS_ORDER (here dispatched against
already-handled orders, so that each succeeds), exactly one failure is
recorded -- keyed by the orderId extracted from the offending message --
the other N-1 messages are all processed normally, and the batch still
returns statusCode 200. -/
theorem claim_c6_batch_isolation (w : World) (store : Store)
    (pre post : List SQSRecord) (bad : SQSRecord) (oidB act : String)
    (hg : w.getFaults = false)
    (hbad : bad.body = MsgBody.valid oidB act) (hact : act ≠ "PROCESS_ORDER")
    (hall : ∀ r ∈ pre ++ post, ∃ oid r0,
      r.body = MsgBody.valid oid "PROCESS_ORDER" ∧
      storeGet store oid = some r0 ∧ r0.status = some "COMPLETED") :
    (handler w store (pre ++ bad :: post)).failedOrders = [oidB] ∧
    (handler w store (pre ++ bad :: post)).processedOrders.length =
      pre.length + post.length ∧
    (handler w store (pre ++ bad :: post)).statusCode = 200 := by
  obtain ⟨ps1, hps1, hlen1⟩ := processRecords_all_completed w hg pre store
    (fun q hq => hall q (by simp [hq]))
  obtain ⟨ps2, hps2, hlen2⟩ := processRecords_all_completed w hg post store
    (fun q hq => hall q (by simp [hq]))
  have hbadrec : handleRecord w store bad = (store, [], [oidB], []) := by
    unfold handleRecord
    rw [hbad]
    simp [hact]
  have htotal : processRecords w store (pre ++ bad :: post) =
      (store, ps1 ++ ps2, [oidB], []) := by
    rw [processRecords_append w pre (bad :: post) store, hps1]
    simp [processRecords, hbadrec, hps2]
  constructor
  · show (processRecords w store (pre ++ bad :: post)).2.2.1 = [oidB]
    rw [htotal]
  constructor
  · show (processRecords w store (pre ++ bad :: post)).2.1.length = _
    rw [htotal]
    simp [hlen1, hlen2]
  · rfl

/-- Witness for C6: three messages, the middle one with an invalid action:
exactly one recorded failure (for it), two processed, statusCode 200. -/
theorem claim_c6_witness :
    (handler worldW [orderDone]
      [⟨"m1", MsgBody.valid "a1" "PROCESS_ORDER"⟩,
       ⟨"m2", MsgBody.valid "b9" "NOPE"⟩,
       ⟨"m3", MsgBody.valid "a1" "PROCESS_ORDER"⟩]).failedOrders = ["b9"] ∧
    (handler worldW [orderDone]
      [⟨"m1", MsgBody.valid "a1" "PROCESS_ORDER"⟩,
       ⟨"m2", MsgBody.valid "b9" "NOPE"⟩,
       ⟨"m3", MsgBody.valid "a1" "PROCESS_ORDER"⟩]).processedOrders.length = 2 ∧
    (handler worldW [orderDone]
      [⟨"m1", MsgBody.valid "a1" "PROCESS_ORDER"⟩,
       ⟨"m2", MsgBody.valid "b9" "NOPE"⟩,
       ⟨"m3", MsgBody.valid "a1" "PROCESS_ORDER"⟩]).statusCode = 200 :=
  claim_c6_batch_isolation worldW [orderDone]
    [⟨"m1", MsgBody.valid "a1" "PROCESS_ORDER"⟩]
    [⟨"m3", MsgBody.valid "a1" "PROCESS_ORDER"⟩]
    ⟨"m2", MsgBody.valid "b9" "NOPE"⟩ "b9" "NOPE"
    rfl rfl (by decide)
    (by
      intro r hr
      simp at hr
      rcases hr with h | h <;>
        exact ⟨"a1", orderDone, by rw [h], by decide, rfl⟩)

/-! ## Side-effect isolation -/

/-- The step loop succeeds exactly when every step executor accepts the
order; the store and the side-effect flags play no role in the outcome. -/
lemma runSteps_ok (w : World) (order : Order) :
    ∀ (steps : List (String × (Order → Bool))) (s : Store) (order_id : String),
      (runSteps w s order_id order steps).ok = steps.all (fun p => p.2 order)
  | [] => by intro s order_id; simp [runSteps]
  | (st1, f) :: rest => by
    intro s order_id
    by_cases hf : f order = true <;>
      simp [runSteps, hf, runSteps_ok w order rest]

/-- The value returned by `process_order` does not depend on any of the
best-effort side-effect fault flags nor on the notification configuration. -/
lemma process_order_result_sideFx (w : World) (u n m c : Bool) (store : Store)
    (order_id : String) :
    (process_order (sideFx w u n m c) store order_id).result =
      (process_order w store order_id).result := by
  cases hgf : w.getFaults with
  | true =>
    unfold process_order
    rw [show (sideFx w u n m c).getFaults = w.getFaults from rfl, hgf]
    all_goals rfl
  | false =>
    cases hget : storeGet store order_id with
    | none =>
      unfold process_order
      rw [show (sideFx w u n m c).getFaults = w.getFaults from rfl, hgf, hget]
    | some o =>
      by_cases hgate : o.status.getD "PENDING" = "PENDING"
      · rw [process_order_pipeline (sideFx w u n m c) store order_id o hgf hget hgate,
          process_order_pipeline w store order_id o hgf hget hgate]
        show Except.ok _ = Except.ok _
        rw [show processing_steps (sideFx w u n m c) = processing_steps w from rfl,
          runSteps_ok, runSteps_ok]
      · cases ho : o.status with
        | none => rw [ho] at hgate; simp at hgate
        | some s0 =>
          rw [ho] at hgate
          simp at hgate
          rw [process_order_short_circuit (sideFx w u n m c) store order_id o s0 hgf
            hget ho hgate,
            process_order_short_circuit w store order_id o s0 hgf hget ho hgate]

/-- When the status-write fault flag is unchanged, the store after the step
loop is also unchanged by the other side-effect flags. -/
lemma runSteps_store_sideFx (w : World) (n m c : Bool) (order : Order) :
    ∀ (steps : List (String × (Order → Bool))) (s : Store) (order_id : String),
      (runSteps (sideFx w w.updateFaults n m c) s order_id order steps).store =
        (runSteps w s order_id order steps).store
  | [] => by intro s order_id; rfl
  | (st1, f) :: rest => by
    intro s order_id
    by_cases hf : f order = true <;>
      simp only [runSteps, hf, if_true, if_false, Bool.false_eq_true,
        runSteps_store_sideFx w n m c order rest] <;> rfl

/-- With the status-write fault flag unchanged, `process_order` returns the
same value and leaves the same store under any notification or metrics
fault and any notification configuration. -/
lemma process_order_sideFx (w : World) (n m c : Bool) (store : Store)
    (order_id : String) :
    (process_order (sideFx w w.updateFaults n m c) store order_id).result =
      (process_order w store order_id).result ∧
    (process_order (sideFx w w.updateFaults n m c) store order_id).store =
      (process_order w store order_id).store := by
  refine ⟨process_order_result_sideFx w w.updateFaults n m c store order_id, ?_⟩
  cases hgf : w.getFaults with
  | true =>
    unfold process_order
    rw [show (sideFx w w.updateFaults n m c).getFaults = w.getFaults from rfl, hgf]
    all_goals rfl
  | false =>
    cases hget : storeGet store order_id with
    | none =>
      unfold process_order
      rw [show (sideFx w w.updateFaults n m c).getFaults = w.getFaults from rfl,
        hgf, hget]
    | some o =>
      by_cases hgate : o.status.getD "PENDING" = "PENDING"
      · rw [process_order_pipeline (sideFx w w.updateFaults n m c) store order_id o
          hgf hget hgate,
          process_order_pipeline w store order_id o hgf hget hgate]
        show (runSteps (sideFx w w.updateFaults n m c) store order_id o
          (processing_steps (sideFx w w.updateFaults n m c))).store = _
        rw [show processing_steps (sideFx w w.updateFaults n m c) =
          processing_steps w from rfl]
        exact runSteps_store_sideFx w n m c o (processing_steps w) store order_id
      · cases ho : o.status with
        | none => rw [ho] at hgate; simp at hgate
        | some s0 =>
          rw [ho] at hgate
          simp at hgate
          rw [process_order_short_circuit (sideFx w w.updateFaults n m c) store
            order_id o s0 hgf hget ho hgate,
            process_order_short_circuit w store order_id o s0 hgf hget ho hgate]

/-- Per-record outcomes and the store are unchanged by notification and
metrics faults and by the notification configuration. -/
lemma handleRecord_sideFx (w : World) (n m c : Bool) (s : Store) (r : SQSRecord) :
    (handleRecord (sideFx w w.updateFaults n m c) s r).1 = (handleRecord w s r).1 ∧
    (handleRecord (sideFx w w.updateFaults n m c) s r).2.1 =
      (handleRecord w s r).2.1 ∧
    (handleRecord (sideFx w w.updateFaults n m c) s r).2.2.1 =
      (handleRecord w s r).2.2.1 := by
  unfold handleRecord
  cases hb : r.body with
  | malformed => exact ⟨rfl, rfl, rfl⟩
  | valid order_id action =>
    by_cases ha : action = "PROCESS_ORDER"
    · obtain ⟨hres, hsto⟩ := process_order_sideFx w n m c s order_id
      simp only [ha, if_true, hres, hsto]
      cases (process_order w s order_id).result with
      | ok b => cases b <;> exact ⟨rfl, rfl, rfl⟩
      | error e => exact ⟨rfl, rfl, rfl⟩
    · simp [ha]

lemma processRecords_sideFx (w : World) (n m c : Bool) :
    ∀ (records : List SQSRecord) (s : Store),
      (processRecords (sideFx w w.updateFaults n m c) s records).1 =
        (processRecords w s records).1 ∧
      (processRecords (sideFx w w.updateFaults n m c) s records).2.1 =
        (processRecords w s records).2.1 ∧
      (processRecords (sideFx w w.updateFaults n m c) s records).2.2.1 =
        (processRecords w s records).2.2.1
  | [] => by intro s; exact ⟨rfl, rfl, rfl⟩
  | r :: rest => by
    intro s
    obtain ⟨h1, h2, h3⟩ := handleRecord_sideFx w n m c s r
    obtain ⟨ih1, ih2, ih3⟩ := processRecords_sideFx w n m c rest (handleRecord w s r).1
    refine ⟨?_, ?_, ?_⟩ <;>
      simp only [processRecords, h1, h2, h3, ih1, ih2, ih3]

/-- Counterexample for C8: a batch delivering the same order twice, with the
payment step declining.  When the FAILED status write succeeds, the second
delivery short-circuits and is reported processed; when the status write
faults (and is swallowed), the second delivery re-runs the pipeline and is
reported failed.  The batch handler outcome therefore does depend on a
fault inside `update_order_status`. -/
theorem claim_c8_counterexample :
    (handler worldPay [orderW]
      [⟨"m1", MsgBody.valid "o1" "PROCESS_ORDER"⟩,
       ⟨"m2", MsgBody.valid "o1" "PROCESS_ORDER"⟩]).processedOrders ≠
    (handler { worldPay with updateFaults := true } [orderW]
      [⟨"m1", MsgBody.valid "o1" "PROCESS_ORDER"⟩,
       ⟨"m2", MsgBody.valid "o1" "PROCESS_ORDER"⟩]).processedOrders := by decide

/-- Claim C8 (amended): faults inside the best-effort side effects never
raise to the caller (they are swallowed by construction), and they never
change the outcome of the invocation itself: the value returned by
`process_order` is independent of all four side-effect settings, and the
batch handler result is independent of notification faults, metrics faults
and the notification configuration.  (A swallowed status-write fault can,
however, change the outcome of a later duplicate message of the same batch;
see the counterexample.) -/
theorem claim_c8_side_effect_isolation (w : World) (u n m c : Bool)
    (store : Store) (order_id : String) (records : List SQSRecord) :
    (process_order (sideFx w u n m c) store order_id).result =
      (process_order w store order_id).result ∧
    (handler (sideFx w w.updateFaults n m c) store records).statusCode =
      (handler w store records).statusCode ∧
    (handler (sideFx w w.updateFaults n m c) store records).processedOrders =
      (handler w store records).processedOrders ∧
    (handler (sideFx w w.updateFaults n m c) store records).failedOrders =
      (handler w store records).failedOrders := by
  obtain ⟨h1, h2, h3⟩ := processRecords_sideFx w n m c records store
  exact ⟨process_order_result_sideFx w u n m c store order_id, rfl,
    h2, h3⟩
